import Mathlib

/-!
Verification of the RBAC authorization core of the authsys repository.

The definitions below are a shallow embedding of the Python source:
- `has_permission` embeds `HasScope.has_permission` (src/rbac/permissions.py),
- `resolveScopes` embeds the scope-building loop of `RBACMiddleware.__call__`
  (src/rbac/middleware.py),
- `manage_user_roles` embeds the post-save signal handler
  (src/accounts/signals.py),
- `rolePermGetOrCreate` embeds `RoleViewSet.assign_permission`
  (src/rbac/views_api.py),
- `get_permissions` embeds `RoleSerializer.get_permissions`
  (src/rbac/serializers.py).

Python dictionaries are embedded as association lists in insertion order,
Python lists as Lean lists, and database tables as lists of rows in storage
order; `get_or_create` calls become membership-checked appends.
-/

namespace Authsys

/-- An atomic grant, embedding the `Permission` model of src/rbac/models.py:
a resource code paired with an action code (both unique string codes). -/
structure Permission where
  resource_code : String
  action_code : String
deriving DecidableEq

/-- The request-scoped `scopes` dictionary built by the middleware:
a mapping from resource code to the list of granted action codes, in
insertion order, embedded as an association list. -/
abbrev Scopes := List (String × List String)

/-- Embeds Python dict lookup `user_scopes.get(resource, [])`:
the value of the first (unique) entry with the given key, or `[]`. -/
def scopesGet (scopes : Scopes) (resource : String) : List String :=
  match scopes.find? (fun p => p.1 == resource) with
  | some p => p.2
  | none => []

/-- The authenticated principal as seen by the permission class:
the flags of `request.user` plus the `scopes` dictionary that the
middleware attaches to it. -/
structure Principal where
  is_authenticated : Bool
  is_staff : Bool
  is_superuser : Bool
  scopes : Scopes

/-- Embeds Python `str.split(":")` on the underlying character list:
splits at every colon, keeping empty parts, so the result always has
one more element than the number of colons. -/
def splitColon : List Char → List (List Char)
  | [] => [[]]
  | c :: rest =>
    if c = ':' then [] :: splitColon rest
    else
      match splitColon rest with
      | [] => [[c]]
      | h :: t => (c :: h) :: t

/-- `required_scope.split(":")` from src/rbac/permissions.py line 64. -/
def pySplit (s : String) : List String :=
  (splitColon s.data).map String.mk

/-- The elevated-status bypass condition of src/rbac/permissions.py
lines 42-47: `request.user and request.user.is_authenticated and
(request.user.is_staff or request.user.is_superuser)`. -/
def elevatedBypass : Option Principal → Bool
  | some u => u.is_authenticated && (u.is_staff || u.is_superuser)
  | none => false

/-- Embeds `HasScope.has_permission` (src/rbac/permissions.py lines 34-70).
`user` is `request.user` (`none` for a missing user object) and
`required_scope` is `getattr(view, "required_scope", None)`.  The Python
`try ... except ValueError` around the two-element unpacking of
`split(":")` is embedded as the catch-all match arm returning `false`. -/
def has_permission (user : Option Principal) (required_scope : Option String) : Bool :=
  if elevatedBypass user then
    true
  else if required_scope.getD "" == "" then
    false
  else
    match user with
    | none => false
    | some u =>
      if !u.is_authenticated then
        false
      else
        match pySplit (required_scope.getD "") with
        | [resource, action] => (scopesGet u.scopes resource).contains action
        | _ => false

/-- A row of the `Role` table (src/rbac/models.py): a unique name plus a
description. -/
structure RoleRow where
  name : String
  description : String
deriving DecidableEq

/-- A row of the `UserRole` table (src/rbac/models.py): links a user id to
a role, identified here by its unique name. -/
structure UserRoleRow where
  user_id : Nat
  role_name : String
deriving DecidableEq

/-- The slice of database state the signal handler touches: the `Role`
table and the `UserRole` table, as lists of rows in storage order. -/
structure Db where
  roles : List RoleRow
  user_roles : List UserRoleRow
deriving DecidableEq

/-- The saved `User` instance as seen by the signal handler. -/
structure User where
  id : Nat
  is_staff : Bool
  is_superuser : Bool

/-- Embeds `Role.objects.get_or_create(name=..., defaults={"description": ...})`:
reuse the existing row when one with the name exists, else append a new row
with the default description. -/
def roleGetOrCreate (db : Db) (name description : String) : Db :=
  if db.roles.any (fun r => r.name == name) then db
  else { db with roles := db.roles ++ [{ name := name, description := description }] }

/-- Embeds `UserRole.objects.get_or_create(user=instance, role=role)`:
append the assignment row unless it already exists. -/
def userRoleGetOrCreate (db : Db) (uid : Nat) (role_name : String) : Db :=
  if db.user_roles.any (fun ur => ur.user_id == uid && ur.role_name == role_name) then db
  else { db with user_roles := db.user_roles ++ [{ user_id := uid, role_name := role_name }] }

/-- Embeds the post-save signal handler `manage_user_roles`
(src/accounts/signals.py lines 13-60): on creation assign Admin to a
superuser and Default otherwise; on update ensure Admin for a superuser;
otherwise do nothing. -/
def manage_user_roles (db : Db) (inst : User) (created : Bool) : Db :=
  if created then
    if inst.is_superuser then
      userRoleGetOrCreate
        (roleGetOrCreate db "Admin" "Full system access for administrators.")
        inst.id "Admin"
    else
      userRoleGetOrCreate
        (roleGetOrCreate db "Default" "Default permissions for new users.")
        inst.id "Default"
  else if inst.is_superuser then
    userRoleGetOrCreate (roleGetOrCreate db "Admin" "") inst.id "Admin"
  else
    db

/-- The number of `UserRole` rows linking the given user to the given role. -/
def assignCount (db : Db) (uid : Nat) (role_name : String) : Nat :=
  db.user_roles.countP (fun ur => ur.user_id == uid && ur.role_name == role_name)

/-- Embeds `RolePermission.objects.get_or_create(role=role, permission=permission)`
from `RoleViewSet.assign_permission` (src/rbac/views_api.py line 96), on the
`RolePermission` table as a list of (role id, permission id) pairs. -/
def rolePermGetOrCreate (links : List (Nat × Nat)) (role_id perm_id : Nat) :
    List (Nat × Nat) :=
  if links.any (fun l => l.1 == role_id && l.2 == perm_id) then links
  else links ++ [(role_id, perm_id)]

/-- The number of `RolePermission` rows for a given (role, permission) pair. -/
def rolePermCount (links : List (Nat × Nat)) (role_id perm_id : Nat) : Nat :=
  links.countP (fun l => l.1 == role_id && l.2 == perm_id)

/-- A row of the `RolePermission` table as traversed by the serializer:
its primary key and the permission it links to. -/
structure RolePermissionRow where
  id : Nat
  permission : Permission
deriving DecidableEq

/-- Embeds `RoleSerializer.get_permissions` (src/rbac/serializers.py lines
77-88): the list comprehension `[rp.permission for rp in obj.role_perms.all()]`,
over the role_perms rows in their stored order (the related queryset
declares no ordering). -/
def get_permissions (role_perms : List RolePermissionRow) : List Permission :=
  role_perms.map (fun rp => rp.permission)

/-- Lexicographic strict order on character lists by code point, the
order Python string comparison uses. -/
def charListLt : List Char → List Char → Bool
  | [], [] => false
  | [], _ :: _ => true
  | _ :: _, [] => false
  | a :: as, b :: bs =>
    if a.toNat < b.toNat then true
    else if b.toNat < a.toNat then false
    else charListLt as bs

/-- Strict lexicographic order on strings by code point. -/
def strLt (s t : String) : Bool :=
  charListLt s.data t.data

/-- Non-strict lexicographic order on strings by code point. -/
def strLe (s t : String) : Bool :=
  strLt s t || s == t

/-- Modelled from the spec: the order `sorted by resource code then action
code` that section 4.2 promises for list_permissions, as a boolean
comparison on adjacent permissions. -/
def permLeByCode (p q : Permission) : Bool :=
  strLt p.resource_code q.resource_code ||
    (p.resource_code == q.resource_code && strLe p.action_code q.action_code)

/-- Modelled from the spec: a permission list is sorted by resource code
then action code when every adjacent pair is ordered by `permLeByCode`. -/
def sortedByCode : List Permission → Bool
  | [] => true
  | [_] => true
  | p :: q :: rest => permLeByCode p q && sortedByCode (q :: rest)

/-- A fixture principal: authenticated, not staff, not superuser, whose
resolved scopes are exactly the invoices read grant. -/
def pInvoices : Principal :=
  { is_authenticated := true, is_staff := false, is_superuser := false,
    scopes := [("invoices", ["read"])] }

theorem splitColon_ne_nil (cs : List Char) : splitColon cs ≠ [] := by
  induction cs with
  | nil => simp [splitColon]
  | cons c rest ih =>
    simp only [splitColon]
    by_cases h : c = ':'
    · simp [h]
    · simp only [h, if_false]
      cases hs : splitColon rest with
      | nil => simp
      | cons hd tl => simp

theorem splitColon_length (cs : List Char) :
    (splitColon cs).length = cs.count ':' + 1 := by
  induction cs with
  | nil => simp [splitColon]
  | cons c rest ih =>
    simp only [splitColon]
    by_cases h : c = ':'
    · simp [h, List.count_cons, ih]
    · simp only [h, if_false]
      cases hs : splitColon rest with
      | nil => exact absurd hs (splitColon_ne_nil rest)
      | cons hd tl =>
        rw [hs] at ih
        simp only [List.length_cons] at ih ⊢
        simp [List.count_cons, h, ih]

theorem pySplit_length (s : String) :
    (pySplit s).length = s.data.count ':' + 1 := by
  simp [pySplit, splitColon_length]

theorem pySplit_pair_ne_empty {rs resource action : String}
    (hsplit : pySplit rs = [resource, action]) : (rs == "") = false := by
  by_cases h : rs = ""
  · subst h
    simp [pySplit, splitColon] at hsplit
  · simp [h]

/-- Embeds `scopes.setdefault(resource_code, []).append(action_code)` from
src/rbac/middleware.py line 67: append the action to the existing entry for
the resource, or add a new entry at the end (dict insertion order). -/
def setdefaultAppend (scopes : Scopes) (resource action : String) : Scopes :=
  if scopes.any (fun p => p.1 == resource) then
    scopes.map (fun p => if p.1 == resource then (p.1, p.2 ++ [action]) else p)
  else
    scopes ++ [(resource, [action])]

/-- Embeds the scope-building nested loop of `RBACMiddleware.__call__`
(src/rbac/middleware.py lines 59-67): the user is given as the list of
their roles, each role as the list of permissions its role_perms link to,
in iteration order; the result is the `scopes` dictionary. -/
def resolveScopes (user_roles : List (List Permission)) : Scopes :=
  user_roles.foldl
    (fun scopes role_perms =>
      role_perms.foldl
        (fun scopes perm => setdefaultAppend scopes perm.resource_code perm.action_code)
        scopes)
    []

theorem scopesGet_cons (hd : String × List String) (tl : Scopes) (k : String) :
    scopesGet (hd :: tl) k = if hd.1 == k then hd.2 else scopesGet tl k := by
  rcases h : hd.1 == k with _ | _ <;> simp [scopesGet, List.find?_cons, h]

theorem scopesGet_mapAppend_ne (t : Scopes) (r a k : String) (h : ¬ k = r) :
    scopesGet (t.map (fun p => if p.1 == r then (p.1, p.2 ++ [a]) else p)) k
      = scopesGet t k := by
  induction t with
  | nil => rfl
  | cons hd tl ih =>
    rw [List.map_cons, scopesGet_cons, scopesGet_cons]
    by_cases hr : hd.1 = r
    · have hk : ¬ r = k := fun e => h e.symm
      simp only [hr, hk]
      simp [hk]
      simpa using ih
    · by_cases hk : hd.1 = k
      · simp [hr, hk, h]
      · simp [hr, hk]
        simpa using ih

theorem scopesGet_mapAppend_self (t : Scopes) (r a : String)
    (h : t.any (fun p => p.1 == r) = true) :
    scopesGet (t.map (fun p => if p.1 == r then (p.1, p.2 ++ [a]) else p)) r
      = scopesGet t r ++ [a] := by
  induction t with
  | nil => simp at h
  | cons hd tl ih =>
    rw [List.map_cons, scopesGet_cons, scopesGet_cons]
    by_cases hr : hd.1 = r
    · simp [hr]
    · simp only [List.any_cons, Bool.or_eq_true] at h
      rcases h with h | h
      · exact absurd (by simpa using h) hr
      · simp [hr]
        simpa using ih h

theorem scopesGet_setdefaultAppend (s : Scopes) (r a k : String) :
    scopesGet (setdefaultAppend s r a) k
      = if k = r then scopesGet s r ++ [a] else scopesGet s k := by
  unfold setdefaultAppend
  rcases hany : s.any (fun p => p.1 == r) with _ | _
  · have hnone : s.find? (fun p => p.1 == r) = none := by
      rw [List.find?_eq_none]
      intro x hx hpx
      have habs : s.any (fun p => p.1 == r) = true := List.any_eq_true.mpr ⟨x, hx, hpx⟩
      simp [hany] at habs
    by_cases hk : k = r
    · subst hk
      simp [scopesGet, List.find?_append, hnone]
    · have hkr : ¬ r = k := fun e => hk e.symm
      cases hfind : s.find? (fun p => p.1 == k) <;>
        simp [scopesGet, List.find?_append, List.find?_cons, hkr, hk, hfind]
  · by_cases hk : k = r
    · subst hk
      have hself := scopesGet_mapAppend_self s k a hany
      simp only [if_pos rfl]
      simpa using hself
    · have hne := scopesGet_mapAppend_ne s r a k hk
      simp only [if_neg hk]
      simpa [hk] using hne

theorem mem_scopesGet_setdefaultAppend (s : Scopes) (r a k x : String) :
    x ∈ scopesGet (setdefaultAppend s r a) k
      ↔ x ∈ scopesGet s k ∨ (k = r ∧ x = a) := by
  rw [scopesGet_setdefaultAppend]
  by_cases hk : k = r
  · subst hk
    simp [List.mem_append]
  · simp [hk]

theorem mem_scopesGet_foldl_perms (ps : List Permission) (s : Scopes) (k x : String) :
    x ∈ scopesGet
        (ps.foldl (fun sc p => setdefaultAppend sc p.resource_code p.action_code) s) k
      ↔ x ∈ scopesGet s k ∨ (⟨k, x⟩ : Permission) ∈ ps := by
  induction ps generalizing s with
  | nil => simp
  | cons p ps ih =>
    simp only [List.foldl_cons, ih, mem_scopesGet_setdefaultAppend, List.mem_cons]
    constructor
    · rintro ((h | ⟨hk, hx⟩) | h)
      · exact Or.inl h
      · refine Or.inr (Or.inl ?_)
        cases p with
        | mk rc ac =>
          simp only at hk hx
          rw [hk, hx]
      · exact Or.inr (Or.inr h)
    · rintro (h | h | h)
      · exact Or.inl (Or.inl h)
      · refine Or.inl (Or.inr ?_)
        refine ⟨?_, ?_⟩ <;> rw [← h]
      · exact Or.inr h

theorem mem_scopesGet_resolveScopes_aux (roles : List (List Permission))
    (s : Scopes) (k x : String) :
    x ∈ scopesGet
        (roles.foldl
          (fun sc role_perms =>
            role_perms.foldl
              (fun sc p => setdefaultAppend sc p.resource_code p.action_code) sc)
          s) k
      ↔ x ∈ scopesGet s k ∨ ∃ ps ∈ roles, (⟨k, x⟩ : Permission) ∈ ps := by
  induction roles generalizing s with
  | nil => simp
  | cons ps roles ih =>
    simp only [List.foldl_cons, ih, mem_scopesGet_foldl_perms, List.mem_cons]
    constructor
    · rintro ((h | h) | ⟨q, hq, hm⟩)
      · exact Or.inl h
      · exact Or.inr ⟨ps, Or.inl rfl, h⟩
      · exact Or.inr ⟨q, Or.inr hq, hm⟩
    · rintro (h | ⟨q, hq | hq, hm⟩)
      · exact Or.inl (Or.inl h)
      · subst hq
        exact Or.inl (Or.inr hm)
      · exact Or.inr ⟨q, hq, hm⟩

/-- C4 counterexample: two roles that each grant projects:read resolve to
two read entries under projects (the middleware appends to a list and never
deduplicates), refuting the claim that the resolved scopes contain exactly
one entry for that action. -/
theorem resolve_duplicate_not_collapsed :
    (scopesGet
        (resolveScopes [[{ resource_code := "projects", action_code := "read" }],
                        [{ resource_code := "projects", action_code := "read" }]])
        "projects").count "read" = 2 ∧
    ¬ (scopesGet
        (resolveScopes [[{ resource_code := "projects", action_code := "read" }],
                        [{ resource_code := "projects", action_code := "read" }]])
        "projects").count "read" = 1 := by
  constructor <;> decide

/-- C4 as amended: the resolver accumulates action codes in per-resource
lists without deduplication, so a grant duplicated across roles appears
once per granting role; membership in the resolved entry is still exactly
set union over the roles, and the two distinct grants of the example
resolve to the projects entry read, create. -/
theorem resolve_union_membership :
    (∀ (roles : List (List Permission)) (r a : String),
        a ∈ scopesGet (resolveScopes roles) r
          ↔ ∃ ps ∈ roles, (⟨r, a⟩ : Permission) ∈ ps) ∧
    resolveScopes [[{ resource_code := "projects", action_code := "read" }],
                   [{ resource_code := "projects", action_code := "create" }]]
      = [("projects", ["read", "create"])] ∧
    scopesGet
        (resolveScopes [[{ resource_code := "projects", action_code := "read" }],
                        [{ resource_code := "projects", action_code := "read" }]])
        "projects" = ["read", "read"] := by
  refine ⟨fun roles r a => ?_, by decide, by decide⟩
  unfold resolveScopes
  rw [mem_scopesGet_resolveScopes_aux]
  simp [scopesGet]

/-- Witness for C4 as amended: a single role granting projects:read puts
read into the resolved projects entry. -/
theorem resolve_union_membership_witness :
    "read" ∈ scopesGet
        (resolveScopes [[{ resource_code := "projects", action_code := "read" }]])
        "projects" :=
  (resolve_union_membership.1 _ "projects" "read").mpr
    ⟨[{ resource_code := "projects", action_code := "read" }], by simp, by simp⟩

/-- C1: for an authenticated principal that is neither staff nor superuser
and a required scope that splits into exactly the pair (resource, action),
the gate allows iff the action is a member of the scopes entry for the
resource (and `scopesGet` returns `[]` when the resource is absent, so
absence denies). -/
theorem check_scope_lookup_iff (u : Principal) (rs resource action : String)
    (hauth : u.is_authenticated = true) (hstaff : u.is_staff = false)
    (hsup : u.is_superuser = false) (hsplit : pySplit rs = [resource, action]) :
    has_permission (some u) (some rs) = true ↔ action ∈ scopesGet u.scopes resource := by
  have hne := pySplit_pair_ne_empty hsplit
  simp [has_permission, elevatedBypass, hauth, hstaff, hsup, hne, hsplit]

/-- Witness for C1: the fixture principal with scopes exactly
invoices read is allowed invoices:read and denied invoices:delete. -/
theorem check_scope_lookup_iff_witness :
    has_permission (some pInvoices) (some "invoices:read") = true ∧
    ¬ has_permission (some pInvoices) (some "invoices:delete") = true := by
  constructor
  · exact (check_scope_lookup_iff pInvoices "invoices:read" "invoices" "read"
      rfl rfl rfl (by decide)).mpr (by decide)
  · intro h
    exact absurd ((check_scope_lookup_iff pInvoices "invoices:delete" "invoices" "delete"
      rfl rfl rfl (by decide)).mp h) (by decide)

/-- C2: an authenticated staff or superuser principal is allowed for every
required scope value (missing, empty or malformed included) and for every
scopes map; the decision is taken before the scope lookup. -/
theorem check_elevated_bypass (u : Principal) (rs : Option String)
    (hauth : u.is_authenticated = true)
    (helev : u.is_staff = true ∨ u.is_superuser = true) :
    has_permission (some u) rs = true := by
  rcases helev with h | h <;> simp [has_permission, elevatedBypass, hauth, h]

/-- Witness for C2: an authenticated staff principal with empty scopes is
allowed even with no required scope configured. -/
theorem check_elevated_bypass_witness :
    has_permission
      (some { is_authenticated := true, is_staff := true,
              is_superuser := false, scopes := [] }) none = true :=
  check_elevated_bypass _ none rfl (Or.inl rfl)

/-- C3: the gate is total (it always returns one of the two boolean
decisions) and fails closed for a non-elevated caller: a missing or empty
required scope denies, and a required scope whose colon count is not
exactly one denies. -/
theorem check_fails_closed :
    (∀ (user : Option Principal) (rs : Option String),
        has_permission user rs = true ∨ has_permission user rs = false) ∧
    (∀ u : Principal, u.is_staff = false → u.is_superuser = false →
        has_permission (some u) none = false ∧
        has_permission (some u) (some "") = false) ∧
    (∀ (u : Principal) (rs : String), u.is_staff = false → u.is_superuser = false →
        rs.data.count ':' ≠ 1 → has_permission (some u) (some rs) = false) := by
  refine ⟨fun user rs => ?_, fun u hstaff hsup => ?_, fun u rs hstaff hsup hcount => ?_⟩
  · cases h : has_permission user rs
    · exact Or.inr rfl
    · exact Or.inl rfl
  · constructor <;> simp [has_permission, elevatedBypass, hstaff, hsup]
  · by_cases hrs : rs = ""
    · simp [has_permission, elevatedBypass, hstaff, hsup, hrs]
    · have hlen : (pySplit rs).length ≠ 2 := by
        rw [pySplit_length]
        omega
      simp only [has_permission, elevatedBypass, hstaff, hsup, Bool.or_self,
        Bool.and_false, if_false, Option.getD_some, Bool.false_eq_true]
      rw [if_neg (by simp [hrs])]
      cases hu : u.is_authenticated
      · simp
      · simp only [Bool.not_true, if_false, Bool.false_eq_true]
        cases hps : pySplit rs with
        | nil => rfl
        | cons a t =>
          cases t with
          | nil => rfl
          | cons b t2 =>
            cases t2 with
            | nil => exact absurd (by rw [hps]; rfl) hlen
            | cons c t3 => rfl

/-- Witness for C3: a plain authenticated principal is denied when the
required scope is missing, empty, or has no colon. -/
theorem check_fails_closed_witness :
    has_permission (some pInvoices) none = false ∧
    has_permission (some pInvoices) (some "") = false ∧
    has_permission (some pInvoices) (some "invalidscopenocolon") = false := by
  refine ⟨(check_fails_closed.2.1 pInvoices rfl rfl).1,
          (check_fails_closed.2.1 pInvoices rfl rfl).2,
          check_fails_closed.2.2 pInvoices "invalidscopenocolon" rfl rfl (by decide)⟩

theorem roleGetOrCreate_user_roles (db : Db) (n d : String) :
    (roleGetOrCreate db n d).user_roles = db.user_roles := by
  unfold roleGetOrCreate
  split <;> rfl

theorem userRoleGetOrCreate_roles (db : Db) (uid : Nat) (rn : String) :
    (userRoleGetOrCreate db uid rn).roles = db.roles := by
  unfold userRoleGetOrCreate
  split <;> rfl

theorem assignCount_roleGetOrCreate (db : Db) (n d : String) (uid : Nat) (rn : String) :
    assignCount (roleGetOrCreate db n d) uid rn = assignCount db uid rn := by
  unfold assignCount
  rw [roleGetOrCreate_user_roles]

theorem any_eq_false_of_assignCount_zero {db : Db} {uid : Nat} {rn : String}
    (h : assignCount db uid rn = 0) :
    db.user_roles.any (fun ur => ur.user_id == uid && ur.role_name == rn) = false := by
  rw [List.any_eq_false]
  intro x hx
  exact List.countP_eq_zero.mp h x hx

theorem assignCount_userRoleGetOrCreate_self (db : Db) (uid : Nat) (rn : String)
    (h : assignCount db uid rn = 0) :
    assignCount (userRoleGetOrCreate db uid rn) uid rn = 1 := by
  unfold userRoleGetOrCreate
  rw [any_eq_false_of_assignCount_zero h]
  simp only [Bool.false_eq_true, if_false]
  unfold assignCount at h ⊢
  simp [List.countP_append, h]

theorem assignCount_userRoleGetOrCreate_other (db : Db) (uid : Nat) (rn : String)
    (uid2 : Nat) (rn2 : String) (h : ¬ (uid2 = uid ∧ rn2 = rn)) :
    assignCount (userRoleGetOrCreate db uid rn) uid2 rn2 = assignCount db uid2 rn2 := by
  unfold userRoleGetOrCreate
  split
  · rfl
  · unfold assignCount
    simp only [List.countP_append]
    by_cases h1 : uid = uid2
    · have h2 : ¬ rn = rn2 := fun e => h ⟨h1.symm, e.symm⟩
      simp [List.countP_cons, h1, h2]
    · simp [List.countP_cons, h1]

theorem roleGetOrCreate_any_self (db : Db) (n d : String) :
    (roleGetOrCreate db n d).roles.any (fun r => r.name == n) = true := by
  unfold roleGetOrCreate
  rcases h : db.roles.any (fun r => r.name == n) with _ | _
  · simp
  · simp [h]

theorem roleGetOrCreate_noop (db : Db) (n d : String)
    (h : db.roles.any (fun r => r.name == n) = true) :
    roleGetOrCreate db n d = db := by
  simp [roleGetOrCreate, h]

theorem userRoleGetOrCreate_noop (db : Db) (uid : Nat) (rn : String)
    (h : db.user_roles.any (fun ur => ur.user_id == uid && ur.role_name == rn) = true) :
    userRoleGetOrCreate db uid rn = db := by
  simp [userRoleGetOrCreate, h]

theorem userRoleGetOrCreate_any_self (db : Db) (uid : Nat) (rn : String) :
    (userRoleGetOrCreate db uid rn).user_roles.any
      (fun ur => ur.user_id == uid && ur.role_name == rn) = true := by
  unfold userRoleGetOrCreate
  rcases h : db.user_roles.any (fun ur => ur.user_id == uid && ur.role_name == rn) with _ | _
  · simp
  · simp [h]

theorem mem_userRoleGetOrCreate (db : Db) (uid : Nat) (rn : String)
    (ur : UserRoleRow) (h : ur ∈ db.user_roles) :
    ur ∈ (userRoleGetOrCreate db uid rn).user_roles := by
  unfold userRoleGetOrCreate
  split
  · exact h
  · exact List.mem_append_left _ h

theorem manage_noop_nonsuper_update (db : Db) (u : User) (h : u.is_superuser = false) :
    manage_user_roles db u false = db := by
  simp [manage_user_roles, h]

theorem manage_create_eq (db : Db) (u : User) :
    manage_user_roles db u true
      = (if u.is_superuser then
          userRoleGetOrCreate
            (roleGetOrCreate db "Admin" "Full system access for administrators.")
            u.id "Admin"
        else
          userRoleGetOrCreate
            (roleGetOrCreate db "Default" "Default permissions for new users.")
            u.id "Default") := by
  simp [manage_user_roles]

theorem manage_create_counts_super (db : Db) (u : User) (hsup : u.is_superuser = true)
    (hA : assignCount db u.id "Admin" = 0) (hD : assignCount db u.id "Default" = 0) :
    assignCount (manage_user_roles db u true) u.id "Admin" = 1 ∧
    assignCount (manage_user_roles db u true) u.id "Default" = 0 := by
  rw [manage_create_eq, if_pos hsup]
  constructor
  · exact assignCount_userRoleGetOrCreate_self _ _ _
      ((assignCount_roleGetOrCreate _ _ _ _ _).trans hA)
  · rw [assignCount_userRoleGetOrCreate_other _ _ _ _ _ (by simp)]
    exact (assignCount_roleGetOrCreate _ _ _ _ _).trans hD

theorem manage_create_counts_nonsuper (db : Db) (u : User) (hsup : u.is_superuser = false)
    (hA : assignCount db u.id "Admin" = 0) (hD : assignCount db u.id "Default" = 0) :
    assignCount (manage_user_roles db u true) u.id "Default" = 1 ∧
    assignCount (manage_user_roles db u true) u.id "Admin" = 0 := by
  rw [manage_create_eq, if_neg (by simp [hsup])]
  constructor
  · exact assignCount_userRoleGetOrCreate_self _ _ _
      ((assignCount_roleGetOrCreate _ _ _ _ _).trans hD)
  · rw [assignCount_userRoleGetOrCreate_other _ _ _ _ _ (by simp)]
    exact (assignCount_roleGetOrCreate _ _ _ _ _).trans hA

theorem manage_create_idem (db : Db) (u : User) :
    manage_user_roles (manage_user_roles db u true) u true
      = manage_user_roles db u true := by
  rcases hsup : u.is_superuser with _ | _ <;>
  · rw [manage_create_eq db u, manage_create_eq, hsup]
    simp only [Bool.false_eq_true, if_false, if_true]
    rw [roleGetOrCreate_noop _ _ _
        (by rw [userRoleGetOrCreate_roles]; exact roleGetOrCreate_any_self _ _ _),
      userRoleGetOrCreate_noop _ _ _ (userRoleGetOrCreate_any_self _ _ _)]

theorem manage_create_role_exists (db : Db) (u : User) :
    (manage_user_roles db u true).roles.any
      (fun r => r.name == (if u.is_superuser then "Admin" else "Default")) = true := by
  rcases hsup : u.is_superuser with _ | _ <;>
  · rw [manage_create_eq, hsup]
    simp only [Bool.false_eq_true, if_false, if_true]
    rw [userRoleGetOrCreate_roles]
    exact roleGetOrCreate_any_self _ _ _

/-- C5: on creation, a superuser gets exactly one Admin assignment and no
Default assignment, anyone else exactly one Default and no Admin; the
role row is get-or-created (it exists afterwards even if it did not
before), and re-running the creation rule changes nothing. -/
theorem creation_auto_assignment (db : Db) (u : User)
    (hA : assignCount db u.id "Admin" = 0) (hD : assignCount db u.id "Default" = 0) :
    (u.is_superuser = true →
        assignCount (manage_user_roles db u true) u.id "Admin" = 1 ∧
        assignCount (manage_user_roles db u true) u.id "Default" = 0) ∧
    (u.is_superuser = false →
        assignCount (manage_user_roles db u true) u.id "Default" = 1 ∧
        assignCount (manage_user_roles db u true) u.id "Admin" = 0) ∧
    manage_user_roles (manage_user_roles db u true) u true
      = manage_user_roles db u true ∧
    (manage_user_roles db u true).roles.any
      (fun r => r.name == (if u.is_superuser then "Admin" else "Default")) = true :=
  ⟨fun hsup => manage_create_counts_super db u hsup hA hD,
   fun hsup => manage_create_counts_nonsuper db u hsup hA hD,
   manage_create_idem db u,
   manage_create_role_exists db u⟩

/-- Witness for C5: against an empty database, creating a plain user
yields one Default and zero Admin assignments, and creating a superuser
yields one Admin assignment. -/
theorem creation_auto_assignment_witness :
    assignCount (manage_user_roles ⟨[], []⟩ ⟨7, false, false⟩ true) 7 "Default" = 1 ∧
    assignCount (manage_user_roles ⟨[], []⟩ ⟨7, false, false⟩ true) 7 "Admin" = 0 ∧
    assignCount (manage_user_roles ⟨[], []⟩ ⟨8, false, true⟩ true) 8 "Admin" = 1 :=
  ⟨((creation_auto_assignment ⟨[], []⟩ ⟨7, false, false⟩ rfl rfl).2.1 rfl).1,
   ((creation_auto_assignment ⟨[], []⟩ ⟨7, false, false⟩ rfl rfl).2.1 rfl).2,
   ((creation_auto_assignment ⟨[], []⟩ ⟨8, false, true⟩ rfl rfl).1 rfl).1⟩

/-- C6: the signal handler only ever adds assignment rows (it never
revokes), and a principal created non-elevated, then promoted by an
update, holds both Default and Admin; a subsequent demotion update leaves
the database unchanged. -/
theorem promotion_additive :
    (∀ (db : Db) (u : User) (created : Bool) (ur : UserRoleRow),
        ur ∈ db.user_roles → ur ∈ (manage_user_roles db u created).user_roles) ∧
    (∀ (db : Db) (u : User), u.is_superuser = false →
        assignCount db u.id "Admin" = 0 → assignCount db u.id "Default" = 0 →
        assignCount
            (manage_user_roles (manage_user_roles db u true)
              { u with is_superuser := true } false) u.id "Default" = 1 ∧
        assignCount
            (manage_user_roles (manage_user_roles db u true)
              { u with is_superuser := true } false) u.id "Admin" = 1 ∧
        manage_user_roles
            (manage_user_roles (manage_user_roles db u true)
              { u with is_superuser := true } false) u false
          = manage_user_roles (manage_user_roles db u true)
              { u with is_superuser := true } false) := by
  constructor
  · intro db u created ur h
    unfold manage_user_roles
    split
    · split <;>
      · apply mem_userRoleGetOrCreate
        rw [roleGetOrCreate_user_roles]
        exact h
    · split
      · apply mem_userRoleGetOrCreate
        rw [roleGetOrCreate_user_roles]
        exact h
      · exact h
  · intro db u hsup hA hD
    have h1D : assignCount (manage_user_roles db u true) u.id "Default" = 1 :=
      (manage_create_counts_nonsuper db u hsup hA hD).1
    have h1A : assignCount (manage_user_roles db u true) u.id "Admin" = 0 :=
      (manage_create_counts_nonsuper db u hsup hA hD).2
    have hstep :
        manage_user_roles (manage_user_roles db u true)
            { u with is_superuser := true } false
          = userRoleGetOrCreate
              (roleGetOrCreate (manage_user_roles db u true) "Admin" "")
              u.id "Admin" := by
      simp [manage_user_roles]
    refine ⟨?_, ?_, manage_noop_nonsuper_update _ u hsup⟩
    · rw [hstep, assignCount_userRoleGetOrCreate_other _ _ _ _ _ (by simp),
        assignCount_roleGetOrCreate]
      exact h1D
    · rw [hstep]
      exact assignCount_userRoleGetOrCreate_self _ _ _
        ((assignCount_roleGetOrCreate _ _ _ _ _).trans h1A)

/-- Witness for C6: a concrete plain user created against an empty
database and then promoted holds exactly one Default and one Admin
assignment. -/
theorem promotion_additive_witness :
    assignCount
        (manage_user_roles (manage_user_roles ⟨[], []⟩ ⟨3, false, false⟩ true)
          ⟨3, false, true⟩ false) 3 "Default" = 1 ∧
    assignCount
        (manage_user_roles (manage_user_roles ⟨[], []⟩ ⟨3, false, false⟩ true)
          ⟨3, false, true⟩ false) 3 "Admin" = 1 :=
  ⟨(promotion_additive.2 ⟨[], []⟩ ⟨3, false, false⟩ rfl rfl rfl).1,
   (promotion_additive.2 ⟨[], []⟩ ⟨3, false, false⟩ rfl rfl rfl).2.1⟩

/-- C10: an update (not a creation) of a non-superuser leaves the database
untouched: no assignment is created and none is removed, so a deleted
Default assignment is never restored by later updates. -/
theorem update_nonsuper_noop (db : Db) (u : User) (h : u.is_superuser = false) :
    manage_user_roles db u false = db ∧
    (manage_user_roles db u false).user_roles = db.user_roles := by
  have heq := manage_noop_nonsuper_update db u h
  exact ⟨heq, by rw [heq]⟩

/-- Witness for C10: updating a plain user against a database that lost
its Default assignment changes nothing. -/
theorem update_nonsuper_noop_witness :
    manage_user_roles ⟨[⟨"Default", ""⟩], []⟩ ⟨2, false, false⟩ false
      = ⟨[⟨"Default", ""⟩], []⟩ :=
  (update_nonsuper_noop ⟨[⟨"Default", ""⟩], []⟩ ⟨2, false, false⟩ rfl).1

/-- C9: a principal created with staff status but not superuser status is
auto-assigned only the Default role, never Admin, while the gate allows it
every scope because the elevated bypass also tests staff status. -/
theorem staff_gate_asymmetry :
    (∀ (db : Db) (u : User), u.is_staff = true → u.is_superuser = false →
        assignCount db u.id "Admin" = 0 → assignCount db u.id "Default" = 0 →
        assignCount (manage_user_roles db u true) u.id "Default" = 1 ∧
        assignCount (manage_user_roles db u true) u.id "Admin" = 0) ∧
    (∀ (sc : Scopes) (rs : Option String),
        has_permission
          (some { is_authenticated := true, is_staff := true,
                  is_superuser := false, scopes := sc }) rs = true) := by
  constructor
  · intro db u _ hsup hA hD
    exact manage_create_counts_nonsuper db u hsup hA hD
  · intro sc rs
    simp [has_permission, elevatedBypass]

/-- Witness for C9: a concrete staff-only user gets one Default and zero
Admin assignments, yet is allowed an arbitrary scope with empty scopes. -/
theorem staff_gate_asymmetry_witness :
    (assignCount (manage_user_roles ⟨[], []⟩ ⟨5, true, false⟩ true) 5 "Default" = 1 ∧
     assignCount (manage_user_roles ⟨[], []⟩ ⟨5, true, false⟩ true) 5 "Admin" = 0) ∧
    has_permission
      (some { is_authenticated := true, is_staff := true,
              is_superuser := false, scopes := [] })
      (some "projects:read") = true :=
  ⟨staff_gate_asymmetry.1 ⟨[], []⟩ ⟨5, true, false⟩ rfl rfl rfl rfl,
   staff_gate_asymmetry.2 [] (some "projects:read")⟩

theorem rolePermGetOrCreate_noop (links : List (Nat × Nat)) (r p : Nat)
    (h : links.any (fun l => l.1 == r && l.2 == p) = true) :
    rolePermGetOrCreate links r p = links := by
  simp [rolePermGetOrCreate, h]

theorem rolePermGetOrCreate_any_self (links : List (Nat × Nat)) (r p : Nat) :
    (rolePermGetOrCreate links r p).any (fun l => l.1 == r && l.2 == p) = true := by
  unfold rolePermGetOrCreate
  rcases h : links.any (fun l => l.1 == r && l.2 == p) with _ | _
  · simp
  · simp [h]

theorem rolePermGetOrCreate_idem (links : List (Nat × Nat)) (r p : Nat) :
    rolePermGetOrCreate (rolePermGetOrCreate links r p) r p
      = rolePermGetOrCreate links r p :=
  rolePermGetOrCreate_noop _ _ _ (rolePermGetOrCreate_any_self links r p)

theorem rolePermCount_getOrCreate (links : List (Nat × Nat)) (r p : Nat) :
    rolePermCount (rolePermGetOrCreate links r p) r p
      = if rolePermCount links r p = 0 then 1 else rolePermCount links r p := by
  unfold rolePermGetOrCreate
  rcases h : links.any (fun l => l.1 == r && l.2 == p) with _ | _
  · have h0 : rolePermCount links r p = 0 := by
      unfold rolePermCount
      rw [List.countP_eq_zero]
      intro x hx hpx
      have habs : links.any (fun l => l.1 == r && l.2 == p) = true :=
        List.any_eq_true.mpr ⟨x, hx, hpx⟩
      simp [h] at habs
    unfold rolePermCount at h0 ⊢
    simp [List.countP_append, h0]
  · have hpos : 0 < rolePermCount links r p := by
      unfold rolePermCount
      rw [List.countP_pos_iff]
      obtain ⟨x, hx, hpx⟩ := List.any_eq_true.mp h
      exact ⟨x, hx, hpx⟩
    simp [Nat.pos_iff_ne_zero.mp hpos]

/-- C7: assigning a permission to a role is idempotent: when the link
exists the call leaves the table unchanged, two successive calls equal
one, and starting from a table respecting the uniqueness constraint two
calls leave exactly one row for the pair. -/
theorem add_permission_idempotent :
    (∀ (links : List (Nat × Nat)) (r p : Nat),
        links.any (fun l => l.1 == r && l.2 == p) = true →
        rolePermGetOrCreate links r p = links) ∧
    (∀ (links : List (Nat × Nat)) (r p : Nat),
        rolePermGetOrCreate (rolePermGetOrCreate links r p) r p
          = rolePermGetOrCreate links r p) ∧
    (∀ (links : List (Nat × Nat)) (r p : Nat),
        rolePermCount links r p ≤ 1 →
        rolePermCount (rolePermGetOrCreate (rolePermGetOrCreate links r p) r p) r p
          = 1) := by
  refine ⟨rolePermGetOrCreate_noop, rolePermGetOrCreate_idem, fun links r p h => ?_⟩
  rw [rolePermGetOrCreate_idem, rolePermCount_getOrCreate]
  rcases h0 : rolePermCount links r p with _ | n
  · simp
  · rw [h0] at h
    have : n = 0 := by omega
    simp [this]

/-- Witness for C7: two calls on an empty link table, and on a table
already holding the link, both end with exactly one row for the pair. -/
theorem add_permission_idempotent_witness :
    rolePermCount (rolePermGetOrCreate (rolePermGetOrCreate [] 1 2) 1 2) 1 2 = 1 ∧
    rolePermCount (rolePermGetOrCreate (rolePermGetOrCreate [(1, 2)] 1 2) 1 2) 1 2 = 1 :=
  ⟨add_permission_idempotent.2.2 [] 1 2 (by decide),
   add_permission_idempotent.2.2 [(1, 2)] 1 2 (by decide)⟩

/-- C8 counterexample: a role whose two permission links are stored in
reverse code order is returned in that stored order, so the output of
get_permissions is not sorted by resource code then action code. -/
theorem list_permissions_unsorted_counterexample :
    sortedByCode
      (get_permissions
        [{ id := 1, permission := { resource_code := "b", action_code := "x" } },
         { id := 2, permission := { resource_code := "a", action_code := "y" } }])
      = false := by
  decide

/-- C8 as amended: get_permissions returns exactly the permissions of the
role links, one per link and in the stored link order (position i of the
output is the permission of link i); no sort is applied, so the output is
sorted by resource then action only when the links are already stored in
that order. -/
theorem list_permissions_link_order :
    (∀ (rows : List RolePermissionRow) (q : Permission),
        q ∈ get_permissions rows ↔ ∃ rp ∈ rows, rp.permission = q) ∧
    (∀ (rows : List RolePermissionRow) (i : Nat),
        (get_permissions rows).get? i = (rows.get? i).map (fun rp => rp.permission)) ∧
    sortedByCode
      (get_permissions
        [{ id := 1, permission := { resource_code := "a", action_code := "y" } },
         { id := 2, permission := { resource_code := "b", action_code := "x" } }])
      = true := by
  refine ⟨fun rows q => ?_, fun rows i => ?_, by decide⟩
  · simp [get_permissions]
  · simp [get_permissions]

/-- Witness for C8 as amended: a concrete single-link role lists exactly
its one permission. -/
theorem list_permissions_link_order_witness :
    ({ resource_code := "a", action_code := "y" } : Permission)
      ∈ get_permissions
          [{ id := 3, permission := { resource_code := "a", action_code := "y" } }] :=
  (list_permissions_link_order.1 _ _).mpr
    ⟨{ id := 3, permission := { resource_code := "a", action_code := "y" } },
     by simp, rfl⟩

end Authsys
